import Mathlib

set_option maxRecDepth 100000

/-!
Verification of the item-tree / name-uniquification core of the
gimp-plugin-export-layers repository (`pgitemtree` module).

The repository ships the test suite of the item-tree module
(`export_layers/pygimplib/tests/test_pgitemtree.py`) together with its two
callers, but not `pgitemtree.py` itself.  All definitions below are
therefore modelled from the specification of the item-tree engine
(spec sections 3, 4.1, 7 and 8), with the concrete expected values pinned
by the shipped test fixtures.
-/

/-- Modelled from the spec: a host item is either a leaf (an exportable
layer) or a group holding an ordered list of child items (§3, §6). -/
inductive Item where
  | leaf : String → Item
  | group : String → List Item → Item

/-- Modelled from the spec: the kind of an item record — `item` for a leaf
layer, `nonemptyGroup` / `emptyGroup` for containers (§3 `kind`). -/
inductive ItemType where
  | item
  | nonemptyGroup
  | emptyGroup
deriving DecidableEq, Repr

/-- Modelled from the spec: one record of the item tree (§3 ItemRecord).
`origName` is the immutable load-time name (unique across the tree),
`name` the mutable working name, `parents` the root-to-parent chain of
original names, `children` the ordered direct children's original names
(`none` for a leaf — a leaf has no children concept at all, distinct from
an empty group), and `tags` the record's tag set. -/
structure ItemElem where
  origName : String
  name : String
  itemType : ItemType
  parents : List String
  children : Option (List String)
  tags : List String
deriving DecidableEq, Repr

/-- The load-time name of a host item. -/
def Item.itemName : Item → String
  | .leaf n => n
  | .group n _ => n

mutual

/-- Modelled from the spec: flattening of one host item into records in
depth-first pre-order — the group header first, then its children (§3). -/
def flattenItem (ps : List String) : Item → List ItemElem
  | .leaf n => [⟨n, n, .item, ps, none, []⟩]
  | .group n cs =>
      ⟨n, n, if cs.isEmpty then .emptyGroup else .nonemptyGroup, ps,
        some (cs.map Item.itemName), []⟩ :: flattenItems (ps ++ [n]) cs

/-- Modelled from the spec: flattening of a forest of host items, in host
stacking order (§3). -/
def flattenItems (ps : List String) : List Item → List ItemElem
  | [] => []
  | i :: rest => flattenItem ps i ++ flattenItems ps rest

end

/-- Modelled from the spec: the item tree (§3 ItemTree).  `elems` is the
flattened pre-order record sequence; `rules` is the list of added filter
rules (AND semantics); `uniqPathRegistered` / `uniqFlatRegistered` hold
the original names of records already processed by path-aware resp. flat
uniquification (the tree-owned uniquification bookkeeping of §9). -/
structure LayerTree where
  elems : List ItemElem
  isFiltered : Bool
  rules : List (ItemElem → Bool)
  uniqPathRegistered : List String
  uniqFlatRegistered : List String

/-- Modelled from the spec: tree construction from a host forest (§4.1),
with filtering disabled and no uniquification state. -/
def buildTree (forest : List Item) : LayerTree :=
  ⟨flattenItems [] forest, false, [], [], []⟩

/-- The example forest of spec §8 / the test fixture `setUp`. -/
def exampleForest : List Item := [
  .group "Corners" [
    .leaf "top-left-corner",
    .leaf "top-right-corner",
    .group "top-left-corner:" [],
    .group "top-left-corner::" [
      .leaf "bottom-right-corner",
      .leaf "bottom-right-corner:",
      .leaf "bottom-left-corner"]],
  .group "Corners:" [.leaf "top-left-corner:::"],
  .group "Frames" [.leaf "top-frame"],
  .leaf "main-background.jpg",
  .leaf "main-background.jpg:",
  .group "Overlay" [],
  .leaf "Corners::",
  .leaf "top-left-corner::::",
  .group "main-background.jpg::" [.leaf "alt-frames", .leaf "alt-corners"]]

/-- The item tree built from the example forest. -/
def exampleTree : LayerTree := buildTree exampleForest

/-- Modelled from the spec: characters illegal in a file-name component on
the host OS (§4.1 name validation: reserved path separators, null and the
other characters reserved on the supported platforms). -/
def invalidFilenameChars : List Char :=
  ['\\', '/', ':', '*', '?', '\"', '<', '>', '|', Char.ofNat 0]

/-- Modelled from the spec: `validate_name` sanitization — deterministically
strip the illegal characters, always producing some legal name (§4.1, §7). -/
def sanitizeName (s : String) : String :=
  String.mk (s.toList.filter (fun c => !invalidFilenameChars.contains c))

/-- Inserts the uniquifier string ` (n)` at character position `p` of `s`
(§4.1 uniquification step 3). -/
def insertUniquifier (s : String) (p n : Nat) : String :=
  let cs := s.toList
  String.mk (cs.take p ++ (" (" ++ toString n ++ ")").toList ++ cs.drop p)

/-- Modelled from the spec: search for the first free uniquified name,
starting from uniquifier index `n`.  The uniquifier is inserted at
position `p`; if that candidate is already taken and `p` is not the end of
the name, the same index is retried at the end of the name before the
index is incremented (§8: the colliding extension-boundary position
"falls back to end-of-name").  `fuel` bounds the search. -/
def uniquifySearch : Nat → Nat → String → List String → Nat → String
  | 0, _, s, _, _ => s
  | fuel + 1, n, s, taken, p =>
    let cand := insertUniquifier s p n
    if !taken.contains cand then cand
    else
      let atEnd := p == s.toList.length
      let cand2 := insertUniquifier s s.toList.length n
      if !atEnd && !taken.contains cand2 then cand2
      else uniquifySearch fuel (n + 1) s taken p

/-- Modelled from the spec: uniquify `s` against the taken names `taken`.
On first occurrence the name is used unmodified; on a repeat a ` (n)`
suffix is inserted at `pos` (default: end of name), `n` starting at 1
(§4.1 uniquification steps 2–3). -/
def uniquifyString (s : String) (taken : List String) (pos : Option Nat) : String :=
  if !taken.contains s then s
  else
    let p := match pos with
      | some p => p
      | none => s.toList.length
    uniquifySearch (taken.length + 1) 1 s taken p

/-- The current name of the record with original name `o`, or `""` when no
such record exists. -/
def getName (t : LayerTree) (o : String) : String :=
  match t.elems.find? (fun e => e.origName == o) with
  | some e => e.name
  | none => ""

/-- Applies `f` to the record with original name `o` (original names are
unique, §3), leaving the rest of the tree unchanged. -/
def mapElem (t : LayerTree) (o : String) (f : ItemElem → ItemElem) : LayerTree :=
  { t with elems := t.elems.map (fun e => if e.origName == o then f e else e) }

/-- Sets the working name of the record with original name `o`. -/
def setElemName (t : LayerTree) (o newName : String) : LayerTree :=
  mapElem t o (fun e => { e with name := newName })

/-- Modelled from the spec: `validate_name` sanitizes the record's working
name (§4.1). -/
def validateName (t : LayerTree) (o : String) : LayerTree :=
  mapElem t o (fun e => { e with name := sanitizeName e.name })

/-- The record's path components: the current (possibly uniquified) names
of its ancestors from root to immediate parent (§4.1 path components). -/
def pathOfElem (t : LayerTree) (e : ItemElem) : List String :=
  e.parents.map (getName t)

/-- The names already taken under the parent-path key `p` by records
registered by path-aware uniquification (§4.1 uniquification step 1: the
candidate key is the tuple of ancestor names plus the name). -/
def takenUnderPath (t : LayerTree) (p : List String) : List String :=
  (t.elems.filter (fun e =>
    t.uniqPathRegistered.contains e.origName && pathOfElem t e == p)).map (·.name)

/-- The names already taken by records registered by flat (path-unaware)
uniquification (§4.1 uniquification step 1 with the name-only key). -/
def takenFlat (t : LayerTree) : List String :=
  (t.elems.filter (fun e => t.uniqFlatRegistered.contains e.origName)).map (·.name)

/-- Modelled from the spec: path-aware uniquification of one record.  An
already-registered record is left untouched; otherwise its name is
sanitized (ancestors reached through this step are groups outside the
filtered iteration, whose names nevertheless enter candidate keys as
validated names — §8 pins the path-qualified results), uniquified against
the names taken under its parent-path key, and the record is registered. -/
def uniquifyChainStep (t : LayerTree) (pos : Option Nat) (o : String) : LayerTree :=
  if t.uniqPathRegistered.contains o then t
  else
    match t.elems.find? (fun e => e.origName == o) with
    | none => t
    | some e =>
      let sanitized := sanitizeName e.name
      let taken := takenUnderPath t (pathOfElem t e)
      let t := setElemName t o (uniquifyString sanitized taken pos)
      { t with uniqPathRegistered := t.uniqPathRegistered ++ [o] }

/-- Modelled from the spec: `uniquify_name` (§4.1).  With
`includeItemPath` the record's whole ancestor chain is processed root
first, each element against its own parent-path key (`pos` applies to the
record itself, `posParents` to its ancestors); without it the record is
uniquified against the flat name-only key.  First-seen keeps the
unsuffixed name; later duplicates get increasing suffixes (§4.1 steps
2–4). -/
def uniquifyName (t : LayerTree) (o : String) (includeItemPath : Bool)
    (pos posParents : Option Nat) : LayerTree :=
  match t.elems.find? (fun e => e.origName == o) with
  | none => t
  | some e =>
    if includeItemPath then
      (e.parents ++ [o]).foldl
        (fun acc c => uniquifyChainStep acc (if c == o then pos else posParents) c) t
    else
      if t.uniqFlatRegistered.contains o then t
      else
        let t1 := setElemName t o (uniquifyString e.name (takenFlat t) pos)
        { t1 with uniqFlatRegistered := t1.uniqFlatRegistered ++ [o] }

/-- Modelled from the spec: `reset_name` restores the record's name to its
original name and forgets the uniquification bookkeeping associated with
that record (§4.1 reset operations). -/
def resetName (t : LayerTree) (o : String) : LayerTree :=
  let t1 := mapElem t o (fun e => { e with name := e.origName })
  { t1 with
    uniqPathRegistered := t1.uniqPathRegistered.filter (fun x => x != o),
    uniqFlatRegistered := t1.uniqFlatRegistered.filter (fun x => x != o) }

/-- Modelled from the spec: `reset_item_elements` restores every record's
name to its original name and clears all uniquification state tree-wide
(§4.1 reset operations). -/
def resetItemElements (t : LayerTree) : LayerTree :=
  { t with
    elems := t.elems.map (fun e => { e with name := e.origName }),
    uniqPathRegistered := [],
    uniqFlatRegistered := [] }

/-- Modelled from the spec: filter evaluation — an empty filter matches
nothing until a rule is added; with rules added, a record passes iff every
rule holds (AND semantics) (§4.1 filter). -/
def filterMatches (rules : List (ItemElem → Bool)) (e : ItemElem) : Bool :=
  !rules.isEmpty && rules.all (fun r => r e)

/-- Modelled from the spec: the records visible to iteration — all records
when `is_filtered` is false, else only the records passing the filter, in
traversal order (§4.1 length / iteration). -/
def visibleElems (t : LayerTree) : List ItemElem :=
  if t.isFiltered then t.elems.filter (filterMatches t.rules) else t.elems

/-- Modelled from the spec: `len(tree)` (§4.1 length / iteration). -/
def treeLen (t : LayerTree) : Nat :=
  (visibleElems t).length

/-- The `is_layer` filter rule of the test fixture: only leaf records. -/
def isLayerRule (e : ItemElem) : Bool :=
  e.itemType == ItemType.item

/-- The `is_layer_or_empty_group` filter rule of the test fixture. -/
def isLayerOrEmptyGroupRule (e : ItemElem) : Bool :=
  e.itemType == ItemType.item || e.itemType == ItemType.emptyGroup

/-- Modelled from the spec: `get_path_components` — the ordered current
names of the record's ancestors from root to immediate parent (§4.1). -/
def getPathComponents (t : LayerTree) (o : String) : List String :=
  match t.elems.find? (fun e => e.origName == o) with
  | some e => pathOfElem t e
  | none => []

/-- Whether an output directory string is absolute (leading separator). -/
def isAbsPath (d : String) : Bool :=
  d.toList.take 1 == ['/']

/-- Modelled from the spec: `get_filepath` as the ordered list of joined
path parts — the output directory (resolved against the current working
directory when `none`/empty, and also when relative, as pinned by the
`test_get_filepath` fixture), then the path components when
`includeItemPath` is set, then the record's current name (§4.1). -/
def getFilepathParts (t : LayerTree) (o : String) (outputDir : Option String)
    (includeItemPath : Bool) (cwd : String) : List String :=
  let dirParts := match outputDir with
    | none => [cwd]
    | some d =>
      if d == "" then [cwd]
      else if isAbsPath d then [d]
      else [cwd, d]
  let comps := if includeItemPath then getPathComponents t o else []
  dirParts ++ comps ++ [getName t o]

/-- Modelled from the spec: the recognized compound file extensions (§4.1
extension helpers; the fixture pins `xcf.bz2`). -/
def knownCompoundExtensions : List String :=
  ["xcf.bz2", "xcf.gz", "tar.bz2", "tar.gz"]

/-- The character index just after the last `.` of `s`, if any. -/
def lastPeriodSplit : List Char → Nat → Option Nat → Option Nat
  | [], _, acc => acc
  | c :: cs, i, acc =>
    lastPeriodSplit cs (i + 1) (if c == '.' then some i else acc)

/-- The character index of the last period of `s`, if any. -/
def lastPeriodIndex (s : String) : Option Nat :=
  lastPeriodSplit s.toList 0 none

/-- The uniquifier position used by the extension-aware fixture: the index
of the last period of the name, or the end of the name if none. -/
def extStartPosition (s : String) : Nat :=
  match lastPeriodIndex s with
  | some i => i
  | none => s.toList.length

/-- Modelled from the spec: `get_file_extension` — the longest recognized
compound extension when the name ends with one, else the substring after
the last period; empty when there is no period, the name ends with a
period, or the whole name is a single period (§4.1 extension helpers). -/
def getFileExtension (name : String) : String :=
  match knownCompoundExtensions.find? (fun k => ("." ++ k).toList.isSuffixOf name.toList) with
  | some k => k
  | none =>
    match lastPeriodIndex name with
    | none => ""
    | some i => String.mk (name.toList.drop (i + 1))

/-- Modelled from the spec: `get_base_name` — the name with the recognized
extension removed, keeping the name unchanged (trailing period included)
when no extension was found (§4.1 extension helpers). -/
def getBaseName (name : String) : String :=
  let ext := getFileExtension name
  if ext == "" then name
  else
    let cs := name.toList
    String.mk (cs.take (cs.length - (ext.toList.length + 1)))

/-- Modelled from the spec: `set_file_extension` — replaces the current
extension (computed by the same compound-aware rule) in place with the
new extension, lower-cased and with a leading period stripped; `none` or
`"."` removes the extension entirely (§4.1 extension helpers). -/
def setFileExtension (name : String) (ext : Option String) : String :=
  let extCur := getFileExtension name
  let newExt := match ext with
    | none => ""
    | some x =>
      let stripped := if x.toList.take 1 == ['.'] then String.mk (x.toList.drop 1) else x
      String.mk (stripped.toList.map Char.toLower)
  let cs := name.toList
  if newExt == "" then
    if extCur == "" then name
    else String.mk (cs.take (cs.length - (extCur.toList.length + 1)))
  else
    if extCur == "" then
      if cs.getLast? == some '.' then name ++ newExt
      else name ++ "." ++ newExt
    else String.mk (cs.take (cs.length - extCur.toList.length)) ++ newExt

/-- Modelled from the spec: `add_tag` — idempotent insertion into the
record's tag set (§4.1 tag operations). -/
def addTag (e : ItemElem) (tag : String) : ItemElem :=
  if e.tags.contains tag then e
  else { e with tags := e.tags ++ [tag] }

/-- Modelled from the spec: `remove_tag` — removes a tag, failing with an
error when the tag is not present (§4.1 tag operations, §7). -/
def removeTag (e : ItemElem) (tag : String) : Except String ItemElem :=
  if e.tags.contains tag then Except.ok { e with tags := e.tags.erase tag }
  else Except.error "tag not present"

/-- The validate-then-uniquify loop of the test fixtures: over the visible
records in filtered traversal order, validate the record's name and then
uniquify it; with `useExtPos` the uniquifier position is the extension
start position of the record's just-validated name. -/
def validateAndUniquifyAll (t : LayerTree) (includeItemPath useExtPos : Bool) : LayerTree :=
  ((visibleElems t).map (·.origName)).foldl
    (fun acc o =>
      let acc := validateName acc o
      let pos := if useExtPos then some (extStartPosition (getName acc o)) else none
      uniquifyName acc o includeItemPath pos none)
    t

/-- The example tree with filtering enabled and the
`is_layer_or_empty_group` rule added, as in the uniquification fixtures. -/
def filteredExampleTree : LayerTree :=
  { exampleTree with isFiltered := true, rules := [isLayerOrEmptyGroupRule] }

/-- The example tree after the flat (path-unaware) validate+uniquify loop
of `test_uniquify_without_layer_groups`. -/
def uniqFlatTree : LayerTree :=
  validateAndUniquifyAll filteredExampleTree false false

/-- The example tree after the path-aware validate+uniquify loop of
`test_uniquify_with_layer_groups`. -/
def uniqPathTree : LayerTree :=
  validateAndUniquifyAll filteredExampleTree true false

/-- The example tree after the extension-position validate+uniquify loop
of `test_uniquify_with_regards_to_file_extension`. -/
def uniqExtTree : LayerTree :=
  validateAndUniquifyAll filteredExampleTree true true

/-- The rename / uniquify / reset-one-record scenario of
`test_reset_name`. -/
def resetScenarioTree : LayerTree :=
  let t := setElemName exampleTree "Corners" "Corners.png"
  let t := validateName t "Corners"
  let t := uniquifyName t "Corners" true none none
  let t := validateName t "Corners::"
  let t := uniquifyName t "Corners::" true none none
  let t := resetName t "Corners"
  let t := validateName t "Corners"
  let t := uniquifyName t "Corners" true none none
  t

/-- The rename / uniquify / reset-everything scenario of
`test_reset_item_elements`. -/
def resetAllScenarioTree : LayerTree :=
  let t := setElemName exampleTree "Corners" "Corners.png"
  let t := setElemName t "Corners:" "Corners.png:"
  let t := validateName t "Corners"
  let t := uniquifyName t "Corners" true none none
  let t := validateName t "Corners:"
  let t := uniquifyName t "Corners:" true none none
  resetItemElements t

/-- Claim C1: building the ItemTree from the example forest yields exactly
the 20 records of the pinned pre-order sequence, each with its pinned
root-to-parent chain and pinned ordered direct children — an empty group
carries an empty children sequence, a leaf carries none. -/
theorem itemtree_c1_preorder_parents_children :
    exampleTree.elems.map (fun e => (e.origName, e.parents, e.children)) =
      [("Corners", [], some ["top-left-corner", "top-right-corner",
          "top-left-corner:", "top-left-corner::"]),
       ("top-left-corner", ["Corners"], none),
       ("top-right-corner", ["Corners"], none),
       ("top-left-corner:", ["Corners"], some []),
       ("top-left-corner::", ["Corners"], some ["bottom-right-corner",
          "bottom-right-corner:", "bottom-left-corner"]),
       ("bottom-right-corner", ["Corners", "top-left-corner::"], none),
       ("bottom-right-corner:", ["Corners", "top-left-corner::"], none),
       ("bottom-left-corner", ["Corners", "top-left-corner::"], none),
       ("Corners:", [], some ["top-left-corner:::"]),
       ("top-left-corner:::", ["Corners:"], none),
       ("Frames", [], some ["top-frame"]),
       ("top-frame", ["Frames"], none),
       ("main-background.jpg", [], none),
       ("main-background.jpg:", [], none),
       ("Overlay", [], some []),
       ("Corners::", [], none),
       ("top-left-corner::::", [], none),
       ("main-background.jpg::", [], some ["alt-frames", "alt-corners"]),
       ("alt-frames", ["main-background.jpg::"], none),
       ("alt-corners", ["main-background.jpg::"], none)] := by decide

/-- Claim C2: after the flat validate+uniquify loop over the filtered
records (layer-or-empty-group rule), the final names are exactly the
pinned ones — first-seen keeps the unsuffixed name, the five pinned later
duplicates get their increasing suffixes, and every other record keeps
its (validated) name. -/
theorem itemtree_c2_uniquify_flat :
    uniqFlatTree.elems.map (fun e => (e.origName, e.name)) =
      [("Corners", "Corners"),
       ("top-left-corner", "top-left-corner"),
       ("top-right-corner", "top-right-corner"),
       ("top-left-corner:", "top-left-corner (1)"),
       ("top-left-corner::", "top-left-corner::"),
       ("bottom-right-corner", "bottom-right-corner"),
       ("bottom-right-corner:", "bottom-right-corner (1)"),
       ("bottom-left-corner", "bottom-left-corner"),
       ("Corners:", "Corners:"),
       ("top-left-corner:::", "top-left-corner (2)"),
       ("Frames", "Frames"),
       ("top-frame", "top-frame"),
       ("main-background.jpg", "main-background.jpg"),
       ("main-background.jpg:", "main-background.jpg (1)"),
       ("Overlay", "Overlay"),
       ("Corners::", "Corners"),
       ("top-left-corner::::", "top-left-corner (3)"),
       ("main-background.jpg::", "main-background.jpg::"),
       ("alt-frames", "alt-frames"),
       ("alt-corners", "alt-corners")] := by decide

/-- Claim C3: after the path-aware validate+uniquify loop, identical names
under distinct parent paths never force a suffix on each other: every
record's path components and final name match the pinned mapping — the
top-level `top-left-corner::::` keeps `top-left-corner`, the three
top-level `Corners` variants become `Corners` / `Corners (1)` /
`Corners (2)`, and `bottom-right-corner:` is suffixed only because of its
sibling under `Corners/top-left-corner (2)`. -/
theorem itemtree_c3_uniquify_with_paths :
    uniqPathTree.elems.map
        (fun e => (e.origName, getPathComponents uniqPathTree e.origName, e.name)) =
      [("Corners", [], "Corners"),
       ("top-left-corner", ["Corners"], "top-left-corner"),
       ("top-right-corner", ["Corners"], "top-right-corner"),
       ("top-left-corner:", ["Corners"], "top-left-corner (1)"),
       ("top-left-corner::", ["Corners"], "top-left-corner (2)"),
       ("bottom-right-corner", ["Corners", "top-left-corner (2)"], "bottom-right-corner"),
       ("bottom-right-corner:", ["Corners", "top-left-corner (2)"], "bottom-right-corner (1)"),
       ("bottom-left-corner", ["Corners", "top-left-corner (2)"], "bottom-left-corner"),
       ("Corners:", [], "Corners (1)"),
       ("top-left-corner:::", ["Corners (1)"], "top-left-corner"),
       ("Frames", [], "Frames"),
       ("top-frame", ["Frames"], "top-frame"),
       ("main-background.jpg", [], "main-background.jpg"),
       ("main-background.jpg:", [], "main-background.jpg (1)"),
       ("Overlay", [], "Overlay"),
       ("Corners::", [], "Corners (2)"),
       ("top-left-corner::::", [], "top-left-corner"),
       ("main-background.jpg::", [], "main-background.jpg (2)"),
       ("alt-frames", ["main-background.jpg (2)"], "alt-frames"),
       ("alt-corners", ["main-background.jpg (2)"], "alt-corners")] := by decide

/-- Claim C4: with the uniquifier position at the last period of each
validated name, the three `main-background.jpg` variants come out, in
traversal order, as `main-background.jpg`, `main-background (1).jpg`
(inserted before the extension) and `main-background.jpg (1)` (the
extension-boundary slot being taken, the suffix goes to the end). -/
theorem itemtree_c4_uniquify_extension_position :
    getName uniqExtTree "main-background.jpg" = "main-background.jpg"
    ∧ getName uniqExtTree "main-background.jpg:" = "main-background (1).jpg"
    ∧ getName uniqExtTree "main-background.jpg::" = "main-background.jpg (1)" := by decide

/-- Claim C7: the example tree has 20 records unfiltered; with filtering
enabled and the single leaf-only rule added it has 13, and iteration
yields exactly the 13 non-group records in traversal order. -/
theorem itemtree_c7_filtering_cardinality :
    treeLen exampleTree = 20
    ∧ treeLen { exampleTree with isFiltered := true, rules := [isLayerRule] } = 13
    ∧ (visibleElems { exampleTree with isFiltered := true, rules := [isLayerRule] }).map
        (·.origName) =
      ["top-left-corner", "top-right-corner", "bottom-right-corner",
       "bottom-right-corner:", "bottom-left-corner", "top-left-corner:::",
       "top-frame", "main-background.jpg", "main-background.jpg:",
       "Corners::", "top-left-corner::::", "alt-frames", "alt-corners"] := by decide

/-- Claim C8: the per-record extension helpers match the pinned examples:
`getFileExtension` on the seven pinned names, `getBaseName` on its pinned
edge cases, and `setFileExtension` lower-casing, compound-aware
replacement and extension removal. -/
theorem itemtree_c8_extension_helpers :
    getFileExtension "main-background.jpg" = "jpg"
    ∧ getFileExtension ".jpg" = "jpg"
    ∧ getFileExtension "main-background.xcf.bz2" = "xcf.bz2"
    ∧ getFileExtension "main-background.aaa.bbb" = "bbb"
    ∧ getFileExtension "main-background" = ""
    ∧ getFileExtension "main-background." = ""
    ∧ getFileExtension "." = ""
    ∧ getBaseName "main-background..jpg" = "main-background."
    ∧ getBaseName ".jpg" = ""
    ∧ getBaseName "." = "."
    ∧ setFileExtension "main-background.jpg" (some "PNG") = "main-background.png"
    ∧ setFileExtension "main-background.xcf.bz2" (some "png") = "main-background.png"
    ∧ setFileExtension "main-background.aaa.jpg" (some "png") = "main-background.aaa.png"
    ∧ setFileExtension "main-background.jpg" none = "main-background"
    ∧ setFileExtension "main-background.jpg" (some ".") = "main-background" := by decide

/-- Claim C5: in every item tree whose `is_filtered` flag is set and whose
filter has had no rule added, no records pass — iteration yields nothing
and the tree's length is 0. -/
theorem itemtree_c5_empty_filter_matches_nothing :
    ∀ t : LayerTree, t.isFiltered = true → t.rules = [] →
      visibleElems t = [] ∧ treeLen t = 0 := by
  intro t h1 h2
  have hv : visibleElems t = [] := by
    simp [visibleElems, h1, h2, filterMatches]
  exact ⟨hv, by simp [treeLen, hv]⟩

/-- Witness for C5 at the example tree with filtering enabled and no rule
added. -/
theorem itemtree_c5_witness :
    visibleElems { exampleTree with isFiltered := true } = []
    ∧ treeLen { exampleTree with isFiltered := true } = 0 :=
  itemtree_c5_empty_filter_matches_nothing _ rfl rfl

/-- Claim C6: `reset_name` restores a record's name to its original name
and frees its uniquification slot; `reset_item_elements` restores every
record's name and clears all uniquification state tree-wide; and in the
pinned scenario (rename `Corners` to `Corners.png`, uniquify it and
`Corners::`, reset `Corners`, validate and uniquify it again) `Corners::`
still reads `Corners` while `Corners` ends as `Corners (1)`, and after
`reset_item_elements` the renamed records read their original names. -/
theorem itemtree_c6_reset_semantics :
    (∀ (t : LayerTree) (o : String),
        o ∉ (resetName t o).uniqPathRegistered
        ∧ o ∉ (resetName t o).uniqFlatRegistered)
    ∧ (∀ (t : LayerTree) (o : String), ∀ e ∈ (resetName t o).elems,
        e.origName = o → e.name = e.origName)
    ∧ (∀ t : LayerTree, (resetItemElements t).uniqPathRegistered = []
        ∧ (resetItemElements t).uniqFlatRegistered = []
        ∧ ∀ e ∈ (resetItemElements t).elems, e.name = e.origName)
    ∧ (getName resetScenarioTree "Corners::" = "Corners"
        ∧ getName resetScenarioTree "Corners" = "Corners (1)"
        ∧ getName resetAllScenarioTree "Corners" = "Corners"
        ∧ getName resetAllScenarioTree "Corners:" = "Corners:") := by
  refine ⟨?_, ?_, ?_, by decide⟩
  · intro t o
    constructor <;> simp [resetName, List.mem_filter]
  · intro t o e he heq
    simp only [resetName, mapElem, List.mem_map] at he
    rcases he with ⟨a, _, rfl⟩
    by_cases hcase : a.origName == o
    · simp [hcase]
    · simp only [hcase, if_neg, Bool.false_eq_true, not_false_eq_true,
        ite_false] at heq ⊢
      exact absurd heq (by simpa using hcase)
  · intro t
    refine ⟨rfl, rfl, ?_⟩
    intro e he
    simp only [resetItemElements, List.mem_map] at he
    rcases he with ⟨a, _, rfl⟩
    rfl

/-- The post-reset `Corners` record used to instantiate C6. -/
def resetWitnessElem : ItemElem :=
  ⟨"Corners", "Corners", ItemType.nonemptyGroup, [],
    some ["top-left-corner", "top-right-corner", "top-left-corner:",
      "top-left-corner::"], []⟩

/-- Witness for C6: the concrete `Corners` record of the example tree
after `reset_name` (resp. `reset_item_elements`) carries its original
name. -/
theorem itemtree_c6_witness :
    (resetWitnessElem ∈ (resetName exampleTree "Corners").elems
      ∧ resetWitnessElem.origName = "Corners"
      ∧ resetWitnessElem.name = resetWitnessElem.origName)
    ∧ (resetWitnessElem ∈ (resetItemElements exampleTree).elems
      ∧ resetWitnessElem.name = resetWitnessElem.origName) :=
  ⟨⟨by decide, by decide,
      itemtree_c6_reset_semantics.2.1 exampleTree "Corners" resetWitnessElem
        (by decide) (by decide)⟩,
   ⟨by decide,
      (itemtree_c6_reset_semantics.2.2.1 exampleTree).2.2 resetWitnessElem
        (by decide)⟩⟩

/-- Claim C9: `add_tag` is idempotent, `remove_tag` of an absent tag fails
with the "tag not present" error instead of being ignored, and removing a
tag right after adding it leaves the tag absent. -/
theorem itemtree_c9_tag_operations :
    ∀ (e : ItemElem) (tag : String),
      addTag (addTag e tag) tag = addTag e tag
      ∧ (tag ∉ e.tags → removeTag e tag = Except.error "tag not present")
      ∧ (e.tags.Nodup →
          ∃ r, removeTag (addTag e tag) tag = Except.ok r ∧ tag ∉ r.tags) := by
  intro e tag
  refine ⟨?_, ?_, ?_⟩
  · by_cases h : tag ∈ e.tags
    · simp [addTag, h]
    · simp [addTag, h]
  · intro h
    simp [removeTag, h]
  · intro hnd
    by_cases h : tag ∈ e.tags
    · exact ⟨{ e with tags := e.tags.erase tag },
        by simp [addTag, removeTag, h], hnd.not_mem_erase⟩
    · refine ⟨{ e with tags := e.tags }, ?_, h⟩
      simp [addTag, removeTag, h, List.erase_append_right _ h]

/-- Witness for C9 at a fresh tagless record and the tag `background`. -/
theorem itemtree_c9_witness :
    (("background" ∉ (⟨"layer", "layer", ItemType.item, [], none, []⟩ : ItemElem).tags)
      ∧ removeTag ⟨"layer", "layer", ItemType.item, [], none, []⟩ "background"
          = Except.error "tag not present")
    ∧ ((⟨"layer", "layer", ItemType.item, [], none, []⟩ : ItemElem).tags.Nodup
      ∧ ∃ r, removeTag (addTag ⟨"layer", "layer", ItemType.item, [], none, []⟩
          "background") "background" = Except.ok r ∧ "background" ∉ r.tags) :=
  ⟨⟨by decide,
      (itemtree_c9_tag_operations ⟨"layer", "layer", ItemType.item, [], none, []⟩
        "background").2.1 (by decide)⟩,
   ⟨by decide,
      (itemtree_c9_tag_operations ⟨"layer", "layer", ItemType.item, [], none, []⟩
        "background").2.2 (by decide)⟩⟩

/-- Claim C10: `get_filepath` resolves a relative, non-empty output
directory against the current working directory — for every record the
parts are cwd, the directory, the ancestor names, then the name — and an
absent output directory likewise yields cwd, ancestor names, name; the
pinned fixture instance with `testgimp` under `bottom-right-corner`
confirms it on the example tree. -/
theorem itemtree_c10_filepath_cwd_resolution :
    (∀ (t : LayerTree) (o cwd d : String), d ≠ "" → isAbsPath d = false →
      getFilepathParts t o (some d) true cwd
          = cwd :: d :: (getPathComponents t o ++ [getName t o])
        ∧ getFilepathParts t o none true cwd
          = cwd :: (getPathComponents t o ++ [getName t o]))
    ∧ getFilepathParts exampleTree "bottom-right-corner" (some "testgimp") true "/cwd"
        = ["/cwd", "testgimp", "Corners", "top-left-corner::", "bottom-right-corner"]
    ∧ getFilepathParts exampleTree "bottom-right-corner" none true "/cwd"
        = ["/cwd", "Corners", "top-left-corner::", "bottom-right-corner"] := by
  refine ⟨?_, by decide, by decide⟩
  intro t o cwd d h1 h2
  constructor <;> simp [getFilepathParts, h1, h2]

/-- Witness for C10 at the example tree, record `bottom-right-corner`,
working directory `/cwd` and relative directory `testgimp`. -/
theorem itemtree_c10_witness :
    ("testgimp" ≠ "" ∧ isAbsPath "testgimp" = false)
    ∧ getFilepathParts exampleTree "bottom-right-corner" (some "testgimp") true "/cwd"
        = "/cwd" :: "testgimp" ::
            (getPathComponents exampleTree "bottom-right-corner"
              ++ [getName exampleTree "bottom-right-corner"]) :=
  ⟨⟨by decide, by decide⟩,
    (itemtree_c10_filepath_cwd_resolution.1 exampleTree "bottom-right-corner"
      "/cwd" "testgimp" (by decide) (by decide)).1⟩
